import Mathlib

/-!
Shallow embedding of the cihai Unihan data-access layer:

* `src/cihai/datasets/unihan.py` — the `Unihan` dataset class (`install`,
  `_create_table`, `get`, `reverse`) and its `UNIHAN_DATASETS` catalog;
* `src/cihai/bootstrap.py` — `is_bootstrapped`, `create_table`, module `get`.

Python strings are modelled as Lean `String`; Python dicts as insertion-ordered
association lists (`dlookup`/`dinsert`/`ddelete` below reproduce CPython's
key-preserving update-or-append semantics); fallible code returns `Option`.

The conversion helpers (`cihai/conversion.py`) are imported by both source
files but are not part of the sources here; they are modelled from the spec
(section 4.1) and are marked as such.  The relational store (SQLAlchemy plus
an SQL backend) is an external collaborator; its documented behaviours that
the code relies on (scalar sub-query evaluation, `LIKE` wildcard matching,
unique-index enforcement, statement-level rollback) are embedded explicitly
where they decide a property.
-/

/-! ## Conversion utilities (modelled from the spec) -/

/-- Upper-case hex digits of `n`, zero-padded to at least four digits. -/
def hexUpperPadded (n : Nat) : List Char :=
  let ds := (Nat.toDigits 16 n).map Char.toUpper
  List.replicate (4 - ds.length) '0' ++ ds

/-- Modelled from the spec: `to_code_point_tag` / `python_to_ucn` from
`cihai/conversion.py` (not under the given sources).  Given a single
character, returns its code point as `"U+"` followed by upper-case hex,
zero-padded to at least 4 digits; fails on anything but a one-character
string. -/
def python_to_ucn (request : String) : Option String :=
  match request.data with
  | [c] => some ("U+" ++ String.mk (hexUpperPadded c.toNat))
  | _ => none

/-- Value of an upper-case hexadecimal digit. -/
def hexDigitVal (c : Char) : Nat :=
  if c.isDigit then c.toNat - 48 else c.toNat - 55

/-- Is `c` a digit of the pattern `[0-9A-F]`? -/
def isHexUpper (c : Char) : Bool :=
  c.isDigit || ('A' ≤ c && c ≤ 'F')

/-- Python `request.startswith('U+')` on the character list of the string. -/
def startsWithUPlus (s : String) : Bool :=
  match s.data with
  | 'U' :: '+' :: _ => true
  | _ => false

/-- Modelled from the spec: `from_code_point_tag` / `ucn_to_unicode` from
`cihai/conversion.py` (not under the given sources).  Inverse of
`python_to_ucn`: fails unless the string matches `U+[0-9A-F]+` and denotes a
valid Unicode scalar value; returns the one-character string. -/
def ucn_to_unicode (tag : String) : Option String :=
  match tag.data with
  | 'U' :: '+' :: ds =>
    if ds ≠ [] ∧ ds.all isHexUpper then
      let n := ds.foldl (fun acc c => 16 * acc + hexDigitVal c) 0
      if n.isValidChar then some (String.mk [Char.ofNat n]) else none
    else none
  | _ => none

/-! ## Python dictionaries as insertion-ordered association lists -/

/-- Python `d[k]` / `k in d` read: first (and, under CPython dict semantics,
only) binding of key `k`. -/
def dlookup {α : Type} : List (String × α) → String → Option α
  | [], _ => none
  | (k', v') :: rest, k => if k' = k then some v' else dlookup rest k

/-- Python `d[k] = v`: replace in place if the key is present, else append. -/
def dinsert {α : Type} : List (String × α) → String → α → List (String × α)
  | [], k, v => [(k, v)]
  | (k', v') :: rest, k, v =>
    if k' = k then (k, v) :: rest else (k', v') :: dinsert rest k v

/-- Python `del d[k]`. -/
def ddelete {α : Type} : List (String × α) → String → List (String × α)
  | [], _ => []
  | (k', v') :: rest, k =>
    if k' = k then ddelete rest k else (k', v') :: ddelete rest k

/-! ## Data model: long-format rows and response dictionaries -/

/-- One row of the long-format `Unihan` table (the `id` surrogate key is
positional and carried by list order). -/
structure Row where
  char : String
  field : String
  value : String
deriving Repr, DecidableEq

/-- A value stored under a key of a cihai response dictionary.  `get` stores a
flat field → value dict under `"unihan"`, `reverse` a char → (field → value)
dict; any other Python value is opaque and carries only its truthiness
(`other b` with `b` = the value's Python falsiness). -/
inductive RVal where
  | flat : List (String × String) → RVal
  | nested : List (String × List (String × String)) → RVal
  | other : Bool → RVal
deriving Repr, DecidableEq

/-- Python falsiness of a response value (`not response['unihan']`). -/
def rvalFalsy : RVal → Bool
  | .flat d => d.isEmpty
  | .nested d => d.isEmpty
  | .other b => b

/-- A cihai response dictionary. -/
def Response : Type := List (String × RVal)

instance : DecidableEq Response := by
  unfold Response
  infer_instance

/-! ## The query layer (`Unihan.get` / `Unihan.reverse`) -/

/-- SQL `LIKE` matching with `%` (any run) and `_` (any one character)
wildcards, on the character lists of pattern and subject.  Each recursive
call shortens the pattern or the subject, so any fuel exceeding the sum of
their lengths suffices; `likeMatch` below supplies it. -/
def likeChars : Nat → List Char → List Char → Bool
  | 0, _, _ => false
  | _ + 1, [], s => s.isEmpty
  | fuel + 1, '%' :: ps, s =>
    likeChars fuel ps s ||
      (match s with
       | [] => false
       | _ :: s2 => likeChars fuel ('%' :: ps) s2)
  | fuel + 1, '_' :: ps, s =>
    (match s with
     | [] => false
     | _ :: s2 => likeChars fuel ps s2)
  | fuel + 1, p :: ps, s =>
    (match s with
     | [] => false
     | c :: s2 => p == c && likeChars fuel ps s2)

/-- The predicate `value LIKE pattern` as issued by `reverse` via
`table.c.value.like(request)`. -/
def likeMatch (pattern s : String) : Bool :=
  likeChars (pattern.data.length + s.data.length + 1) pattern.data s.data

namespace Unihan

/-- The rows produced by the sub-select
`q = select([table.c.field]).where(and_(*[table.c.field == t for t in fields]))`:
an `and_` conjunction of one equality per entry of `fields` (true for the
empty conjunction). -/
def subqueryFieldRows (table : List Row) (fields : List String) : List String :=
  (table.filter (fun r => fields.all (fun t => r.field == t))).map (fun r => r.field)

/-- The predicate `table.c.field == q` with `q` used as a scalar sub-query:
the store takes the first row of the sub-select, or SQL NULL — which compares
unequal to everything — when the sub-select is empty. -/
def fieldEqSubquery (table : List Row) (fields : List String) (f : String) : Bool :=
  match (subqueryFieldRows table fields).head? with
  | some s => f == s
  | none => false

/-- Rows returned by the `get` query:
`select([value, char, field]).where(field == q).where(value == request)`.
Note the second conjunct compares the `value` column with the normalized
request. -/
def getQueryRows (table : List Row) (fields : List String) (request : String) :
    List Row :=
  table.filter (fun r => fieldEqSubquery table fields r.field && r.value == request)

/-- Rows returned by the `reverse` query:
`select([value, char, field]).where(field == q).where(value.like(request))`. -/
def reverseQueryRows (table : List Row) (fields : List String) (request : String) :
    List Row :=
  table.filter (fun r => fieldEqSubquery table fields r.field && likeMatch request r.value)

/-- The normalization `request = conversion.python_to_ucn(request)` guarded by
`request.startswith('U+')`. -/
def normalizeRequest (request : String) : Option String :=
  if startsWithUPlus request then some request else python_to_ucn request

/-- Python `response['unihan'][field] = value`; fails (Python `TypeError`) when the
value stored under `'unihan'` is not a flat dict. -/
def setUnihanField (resp : Response) (f v : String) : Option Response :=
  match dlookup resp "unihan" with
  | some (RVal.flat d) => some (dinsert resp "unihan" (RVal.flat (dinsert d f v)))
  | _ => none

/-- Python `if not char in response['unihan']: response['unihan'][char] = {}` followed
by `response['unihan'][char][field] = value`; fails when the value stored
under `'unihan'` is not a nested dict. -/
def setUnihanNested (resp : Response) (ch f v : String) : Option Response :=
  match dlookup resp "unihan" with
  | some (RVal.nested d) =>
    let inner := (dlookup d ch).getD []
    some (dinsert resp "unihan" (RVal.nested (dinsert d ch (dinsert inner f v))))
  | _ => none

/-- Method `Unihan.get` (src/cihai/datasets/unihan.py lines 277-323): normalize the
request to its UCN tag unless already tagged, run the query, create
`response['unihan']` if absent (`if query:` is always taken — a result proxy
object is truthy), fill it from the rows, and delete it again when falsy.
`fields` is the field filter after the `kwargs` default resolution. -/
def get (table : List Row) (request : String) (fields : List String)
    (response : Response) : Option Response :=
  match normalizeRequest request with
  | none => none
  | some req =>
    let rows := getQueryRows table fields req
    let resp1 :=
      if (dlookup response "unihan").isNone then
        dinsert response "unihan" (RVal.flat [])
      else response
    match rows.foldlM (fun resp r => setUnihanField resp r.field r.value) resp1 with
    | none => none
    | some resp2 =>
      match dlookup resp2 "unihan" with
      | none => none
      | some v => some (if rvalFalsy v then ddelete resp2 "unihan" else resp2)

/-- Method `Unihan.reverse` (src/cihai/datasets/unihan.py lines 325-373): run the
`LIKE` query, create `response['unihan']` if absent, group the rows by
`ucn_to_unicode` of the stored char, and delete the key again when falsy. -/
def reverse (table : List Row) (request : String) (fields : List String)
    (response : Response) : Option Response :=
  let rows := reverseQueryRows table fields request
  let resp1 :=
    if (dlookup response "unihan").isNone then
      dinsert response "unihan" (RVal.nested [])
    else response
  match
    rows.foldlM
      (fun resp r =>
        match ucn_to_unicode r.char with
        | none => none
        | some ch => setUnihanNested resp ch r.field r.value)
      resp1
  with
  | none => none
  | some resp2 =>
    match dlookup resp2 "unihan" with
    | none => none
    | some v => some (if rvalFalsy v then ddelete resp2 "unihan" else resp2)

/-- The line filter and record builder of `Unihan.install.csv_to_dictlists`
(src/cihai/datasets/unihan.py lines 218-230): a line survives when
`l[0] != '#' and l != '\n'`; each surviving line yields the dict
`dict(zip(['char', 'field', 'value'], l.strip().split('\t')))` (`zip`
truncates at the shorter sequence). -/
def installKeys : List String := ["char", "field", "value"]

/-- Python `str.strip()`: drop leading and trailing whitespace. -/
def pyStrip (l : List Char) : List Char :=
  ((l.dropWhile Char.isWhitespace).reverse.dropWhile Char.isWhitespace).reverse

/-- Python `str.split('\t')`: cut at every tab, keeping empty pieces. -/
def splitTabAux : List Char → List Char → List String
  | [], cur => [String.mk cur.reverse]
  | c :: cs, cur =>
    if c = '\t' then String.mk cur.reverse :: splitTabAux cs []
    else splitTabAux cs (c :: cur)

/-- One record: `dict(zip(keys, l.strip().split('\t')))` for one line. -/
def recordOfLine (l : String) : List (String × String) :=
  List.zip installKeys (splitTabAux (pyStrip l.data) [])

/-- Embedding of `csv_to_dictlists`: the list comprehension
`[dict(zip(keys, l.strip().split('\t'))) for l in combine if l[0] != '#' and l != '\n']`
over the concatenated line stream of the source files. -/
def csv_to_dictlists (lines : List String) : List (List (String × String)) :=
  (lines.filter (fun l => !(l.front == '#') && !(l == "\n"))).map recordOfLine

/-- A parsed record as a row of the long-format table (a key missing from a
truncated record becomes an SQL NULL, rendered here as `""`). -/
def rowOfRecord (rec : List (String × String)) : Row :=
  { char := (dlookup rec "char").getD ""
    field := (dlookup rec "field").getD ""
    value := (dlookup rec "value").getD "" }

/-- Does inserting `r` into a table holding `existing` satisfy the two unique
indexes declared by `Unihan._create_table`
(`Unihan_unique_char_field_value` on (char, field, value) and
`Unihan_unique_char_field` on (char, field))? -/
def rowOK (existing : List Row) (r : Row) : Bool :=
  existing.all fun e =>
    !((e.char == r.char && e.field == r.field && e.value == r.value) ||
      (e.char == r.char && e.field == r.field))

/-- Modelled from the spec: the storage collaborator executes the bulk insert
of `install` (`metadata.bind.execute(table.insert(), data)`) row by row
guarded by the unique indexes; the first violation rejects the statement
(`none`). -/
def insertManyAux : List Row → List Row → Option (List Row)
  | acc, [] => some acc
  | acc, r :: rs => if rowOK acc r then insertManyAux (acc ++ [r]) rs else none

/-- Modelled from the spec: a rejected bulk insert is rolled back as a whole,
keeping previously inserted rows intact; an accepted one commits.  `installOnce`
is the table-state effect of one `Unihan.install` run whose parsed records are
`data`. -/
def installOnce (state : List Row) (data : List Row) : List Row :=
  match insertManyAux state data with
  | some s => s
  | none => state

/-- The table-state effect of one `Unihan.install` run over the concatenated
line stream `lines` of a fixed source file set. -/
def installFromLines (lines : List String) (state : List Row) : List Row :=
  installOnce state ((csv_to_dictlists lines).map rowOfRecord)

end Unihan

/-! ## Schema model (`bootstrap.py` and `Unihan._create_table`) -/

/-- A table as registered in SQLAlchemy metadata: its column names, primary
key columns, and its declared indexes as (name, (columns, unique)). -/
structure SATable where
  name : String
  columns : List String
  primary_key : List String
  indexes : List (String × List String × Bool)
deriving Repr, DecidableEq

/-- Embedding of `sqlalchemy.MetaData`: the registry of tables by name. -/
abbrev Metadata : Type := List (String × SATable)

namespace bootstrap

/-- Constant `TABLE_NAME = 'Unihan'` (src/cihai/bootstrap.py line 17). -/
def TABLE_NAME : String := "Unihan"

/-- Constant `DEFAULT_COLUMNS = ['ucn', 'char']` (line 19). -/
def DEFAULT_COLUMNS : List String := ["ucn", "char"]

/-- Python `<` on strings: lexicographic comparison of code points. -/
def strLt : List Char → List Char → Bool
  | [], [] => false
  | [], _ :: _ => true
  | _ :: _, [] => false
  | a :: as, b :: bs => a.toNat < b.toNat || (a == b && strLt as bs)

/-- Python `<=` on strings. -/
def strLe (a b : String) : Bool := !strLt b.data a.data

/-- Python `sorted`: stable ascending sort (insertion sort). -/
def sortedInsert (a : String) : List String → List String
  | [] => [a]
  | b :: bs => if strLe a b then a :: b :: bs else b :: sortedInsert a bs

/-- Python `sorted` over a list of strings. -/
def pySorted : List String → List String
  | [] => []
  | a :: as => sortedInsert a (pySorted as)

/-- Embedding of `flatten_datasets = lambda d: sorted({c for cs in d.values() for c in cs})`
(line 18). -/
def flatten_datasets (d : List (String × List String)) : List String :=
  pySorted ((d.map Prod.snd).flatten).dedup

/-- Embedding of `is_bootstrapped(metadata, install_dict)` (lines 27-41) on the branch
where a (truthy) `install_dict` is supplied; a falsy one is replaced by the
external `UNIHAN_MANIFEST` before this computation. -/
def is_bootstrapped (metadata : Metadata) (install_dict : List (String × List String)) :
    Bool :=
  let columns := flatten_datasets install_dict ++ DEFAULT_COLUMNS
  match dlookup metadata TABLE_NAME with
  | some table => decide (columns.toFinset = table.columns.toFinset)
  | none => false

/-- Embedding of `create_table(columns, metadata)` (lines 44-74): when no table named
`TABLE_NAME` is registered, build the wide table — `char` and `ucn` as a
composite primary key, one nullable `String(256)` column per entry of
`columns`, a unique index on `char` alone and a unique index on
(`char`, `ucn`) — and register it; otherwise `Table(TABLE_NAME, metadata)`
hands back the registered table untouched. -/
def create_table (columns : List String) (metadata : Metadata) :
    SATable × Metadata :=
  match dlookup metadata TABLE_NAME with
  | none =>
    let table : SATable :=
      { name := TABLE_NAME
        columns := ["char", "ucn"] ++ columns
        primary_key := ["char", "ucn"]
        indexes := [(TABLE_NAME ++ "_unique_char", (["char"], true)),
                    (TABLE_NAME ++ "_unique_char_ucn", (["char", "ucn"], true))] }
    (table, dinsert metadata TABLE_NAME table)
  | some t => (t, metadata)

end bootstrap

/-! ## Wide-table states reachable through the declared unique indexes -/

/-- A row of the wide `Unihan` table: the `char` and `ucn` key columns plus
the per-field columns. -/
structure WideRow where
  char : String
  ucn : String
  rest : List (String × String)
deriving Repr, DecidableEq

/-- The value of column `c` in a wide row. -/
def colVal (r : WideRow) (c : String) : Option String :=
  if c == "char" then some r.char
  else if c == "ucn" then some r.ucn
  else dlookup r.rest c

/-- Does inserting `r` keep the unique index on `cols` satisfied against the
rows already present? -/
def indexAdmits (rows : List WideRow) (cols : List String) (r : WideRow) : Bool :=
  rows.all fun e => !(cols.all fun c => colVal e c == colVal r c)

/-- Does inserting `r` into table `t` holding `rows` satisfy every unique
index `t` declares? -/
def admissible (t : SATable) (rows : List WideRow) (r : WideRow) : Bool :=
  t.indexes.all fun idx => !idx.2.2 || indexAdmits rows idx.2.1 r

/-- Modelled from the spec: the storage layer enforces the declared unique
indexes on every insert, so a table state is reachable exactly when it is
built from the empty table by inserts each of which the indexes admit. -/
inductive WideReachable (t : SATable) : List WideRow → Prop
  | nil : WideReachable t []
  | insert {rows : List WideRow} {r : WideRow} : WideReachable t rows →
      admissible t rows r = true → WideReachable t (rows ++ [r])

/-! ## Dictionary lemmas -/

theorem dlookup_dinsert_self {α : Type} (d : List (String × α)) (k : String) (v : α) :
    dlookup (dinsert d k v) k = some v := by
  induction d with
  | nil => simp [dinsert, dlookup]
  | cons p rest ih =>
    by_cases h : p.1 = k
    · simp [dinsert, dlookup, h]
    · simp [dinsert, dlookup, h, ih]

theorem dlookup_dinsert_ne {α : Type} (d : List (String × α)) (k k' : String) (v : α)
    (h : k' ≠ k) : dlookup (dinsert d k v) k' = dlookup d k' := by
  induction d with
  | nil => simp [dinsert, dlookup, Ne.symm h]
  | cons p rest ih =>
    by_cases hp : p.1 = k
    · have hp' : ¬p.1 = k' := by rw [hp]; exact Ne.symm h
      simp [dinsert, dlookup, hp, hp', Ne.symm h]
    · by_cases hp' : p.1 = k'
      · simp [dinsert, dlookup, hp, hp', h]
      · simp [dinsert, dlookup, hp, hp', ih]

theorem dlookup_ddelete_ne {α : Type} (d : List (String × α)) (k k' : String)
    (h : k' ≠ k) : dlookup (ddelete d k) k' = dlookup d k' := by
  induction d with
  | nil => simp [ddelete, dlookup]
  | cons p rest ih =>
    by_cases hp : p.1 = k
    · simp [ddelete, dlookup, hp, Ne.symm h, ih]
    · by_cases hp' : p.1 = k'
      · simp [ddelete, dlookup, hp, hp', h]
      · simp [ddelete, dlookup, hp, hp', ih]

theorem dinsert_of_lookup_none {α : Type} (d : List (String × α)) (k : String) (v : α)
    (h : dlookup d k = none) : dinsert d k v = d ++ [(k, v)] := by
  induction d with
  | nil => simp [dinsert]
  | cons p rest ih =>
    by_cases hp : p.1 = k
    · simp [dlookup, hp] at h
    · simp [dlookup, hp] at h
      simp [dinsert, hp, ih h]

theorem ddelete_of_lookup_none {α : Type} (d : List (String × α)) (k : String)
    (h : dlookup d k = none) : ddelete d k = d := by
  induction d with
  | nil => simp [ddelete]
  | cons p rest ih =>
    by_cases hp : p.1 = k
    · simp [dlookup, hp] at h
    · simp [dlookup, hp] at h
      simp [ddelete, hp, ih h]

theorem ddelete_append {α : Type} (d e : List (String × α)) (k : String) :
    ddelete (d ++ e) k = ddelete d k ++ ddelete e k := by
  induction d with
  | nil => simp [ddelete]
  | cons p rest ih =>
    by_cases hp : p.1 = k <;> simp [ddelete, hp, ih]

/-! ## Claim theorems -/

/-- C1: the forward-lookup scenario `lookup("好", field_filter=["kDefinition"])`
on a store containing the row (char="好", field="kDefinition", value="good")
(or its code-point-tag variant char="U+597D") does NOT return
`{"kDefinition": "good"}`: `Unihan.get` compares the `value` column — not the
`char` column — with the normalized request, so the query matches nothing and
the result omits the `unihan` key; conversely a row whose `value` happens to
equal the request's tag is returned even though its `char` differs. -/
theorem get_matches_value_column_not_char :
    Unihan.get [⟨"好", "kDefinition", "good"⟩] "好" ["kDefinition"] [] = some [] ∧
    Unihan.get [⟨"U+597D", "kDefinition", "good"⟩] "好" ["kDefinition"] [] = some [] ∧
    Unihan.get [⟨"U+4E00", "kSemanticVariant", "U+597D"⟩] "好" ["kSemanticVariant"] [] =
      some [("unihan", RVal.flat [("kSemanticVariant", "U+597D")])] :=
  ⟨rfl, rfl, rfl⟩

/-- C5 (counter-evidence): with a two-field filter, `Unihan.reverse` returns no
rows at all — the filter `and_`-conjoins `field == t` over all filter entries
inside a scalar sub-query, which is unsatisfiable for two distinct names —
even though the store holds a row whose field is in the filter and whose value
matches the pattern; with a single-field filter the same query does return the
row, grouped under the display character. -/
theorem reverse_multi_field_filter_returns_nothing :
    Unihan.reverse
        [⟨"U+597D", "kDefinition", "good"⟩, ⟨"U+4F73", "kMandarin", "good fortune"⟩]
        "good%" ["kDefinition", "kMandarin"] [] = some [] ∧
    likeMatch "good%" "good" = true ∧
    ("kDefinition" : String) ∈ ["kDefinition", "kMandarin"] ∧
    Unihan.reverse
        [⟨"U+597D", "kDefinition", "good"⟩, ⟨"U+4F73", "kMandarin", "good fortune"⟩]
        "good%" ["kDefinition"] [] =
      some [("unihan", RVal.nested [("好", [("kDefinition", "good")])])] :=
  ⟨rfl, rfl, by decide, rfl⟩

/-- C6 (counterexample): `lookup("好", field_filter=["kNoSuchField"])` does not
raise any `UnknownFieldError` — the code performs no field validation at all;
the call returns normally with zero rows and no `unihan` key. -/
theorem get_unknown_field_returns_normally :
    Unihan.get [⟨"好", "kDefinition", "good"⟩] "好" ["kNoSuchField"] [] = some [] :=
  rfl

/-- When the request normalizes, the response has no `unihan` key yet, and the
query returns no rows, `get` hands the response back unchanged: the `unihan`
key is created empty and deleted again. -/
theorem get_of_no_rows (table : List Row) (request : String) (fields : List String)
    (response : Response) (req : String)
    (h1 : Unihan.normalizeRequest request = some req)
    (h2 : dlookup response "unihan" = none)
    (h3 : Unihan.getQueryRows table fields req = []) :
    Unihan.get table request fields response = some response := by
  unfold Unihan.get
  rw [h1]
  simp only [h3, h2, Option.isNone_none, if_true, List.foldlM_nil,
    dlookup_dinsert_self, rvalFalsy, List.isEmpty_nil]
  rw [dinsert_of_lookup_none _ _ _ h2, ddelete_append, ddelete_of_lookup_none _ _ h2]
  simp [ddelete]

/-- If some stored row passes the `and_` conjunction of the field filter then
its field equals every filter entry; hence when no stored row's field is in a
nonempty filter, the sub-select is empty, the scalar comparison is against SQL
NULL, and the query returns no rows. -/
theorem getQueryRows_eq_nil_of_no_field (table : List Row) (fields : List String)
    (req : String) (f : String) (hf : f ∈ fields)
    (h : ∀ r ∈ table, r.field ∉ fields) :
    Unihan.getQueryRows table fields req = [] := by
  have hsub : Unihan.subqueryFieldRows table fields = [] := by
    unfold Unihan.subqueryFieldRows
    rw [List.map_eq_nil_iff, List.filter_eq_nil_iff]
    intro r hr hall
    simp only [List.all_eq_true, beq_iff_eq] at hall
    exact h r hr (hall f hf ▸ hf)
  unfold Unihan.getQueryRows
  rw [List.filter_eq_nil_iff]
  intro r _
  simp [Unihan.fieldEqSubquery, hsub]

/-- C4: on every lookup whose query yields zero rows — in particular any lookup
on an empty store — `get` is not an error: it returns the response it was
given, with the top-level `unihan` key absent (never an empty nested
mapping). -/
theorem get_zero_matches_is_empty_result (table : List Row) (request : String)
    (fields : List String) (response : Response) (req : String)
    (h1 : Unihan.normalizeRequest request = some req)
    (h2 : dlookup response "unihan" = none)
    (h3 : Unihan.getQueryRows table fields req = []) :
    Unihan.get table request fields response = some response ∧
      dlookup response "unihan" = none :=
  ⟨get_of_no_rows table request fields response req h1 h2 h3, h2⟩

/-- Witness for C4: `lookup("鼎")` on an empty store returns the unchanged
empty response, with no `unihan` key. -/
theorem get_zero_matches_is_empty_result_witness :
    Unihan.get [] "鼎" [] [] = some [] ∧ dlookup ([] : Response) "unihan" = none :=
  get_zero_matches_is_empty_result [] "鼎" [] [] "U+9F0E" rfl rfl rfl

/-- C6 (amended): a field filter mentioning only names under which no row is
stored — in particular a name absent from the catalog — makes `get` silently
yield zero rows and return the response unchanged; no `UnknownFieldError`
exists in the code. -/
theorem get_unknown_field_silently_empty (table : List Row) (request : String)
    (fields : List String) (response : Response) (req f : String)
    (h1 : Unihan.normalizeRequest request = some req)
    (h2 : dlookup response "unihan" = none)
    (hf : f ∈ fields)
    (hunknown : ∀ r ∈ table, r.field ∉ fields) :
    Unihan.get table request fields response = some response :=
  get_of_no_rows table request fields response req h1 h2
    (getQueryRows_eq_nil_of_no_field table fields req f hf hunknown)

/-- Witness for the amended C6. -/
theorem get_unknown_field_silently_empty_witness :
    Unihan.get [⟨"U+597D", "kDefinition", "good"⟩, ⟨"U+4F73", "kMandarin", "jiā"⟩]
        "好" ["kNoSuchField"] [] = some [] :=
  get_unknown_field_silently_empty _ "好" _ [] "U+597D" "kNoSuchField"
    rfl rfl (by decide) (by decide)

/-- C2: with a (truthy) expected field set supplied, `is_bootstrapped` is true
iff the metadata registers a table named `Unihan` whose column-name set
exactly equals the flattened expected field names united with
{`char`, `ucn`}; in particular it is false whenever the table is absent. -/
theorem is_bootstrapped_set_equality (metadata : Metadata)
    (install_dict : List (String × List String)) (_hne : install_dict ≠ []) :
    bootstrap.is_bootstrapped metadata install_dict = true ↔
      ∃ t, dlookup metadata bootstrap.TABLE_NAME = some t ∧
        t.columns.toFinset =
          (bootstrap.flatten_datasets install_dict).toFinset ∪ {"char", "ucn"} := by
  unfold bootstrap.is_bootstrapped
  cases h : dlookup metadata bootstrap.TABLE_NAME with
  | none => simp
  | some t =>
    have hdc : (bootstrap.DEFAULT_COLUMNS).toFinset = ({"char", "ucn"} : Finset String) := by
      decide
    simp only [decide_eq_true_eq]
    constructor
    · intro htrue
      exact ⟨t, rfl, by rw [← htrue, List.toFinset_append, hdc]⟩
    · rintro ⟨t', ht', hcols⟩
      cases Option.some.inj ht'
      rw [List.toFinset_append, hdc, hcols]

/-- Witness for C2: a metadata state whose `Unihan` table has exactly the
expected columns is reported bootstrapped. -/
theorem is_bootstrapped_set_equality_witness :
    bootstrap.is_bootstrapped
        [("Unihan", ⟨"Unihan", ["char", "ucn", "kDefinition", "kMandarin"], [], []⟩)]
        [("Unihan_Readings.txt", ["kDefinition", "kMandarin"])] = true :=
  (is_bootstrapped_set_equality _ _ (by decide)).mpr
    ⟨⟨"Unihan", ["char", "ucn", "kDefinition", "kMandarin"], [], []⟩, rfl, by
      have hf :
          bootstrap.flatten_datasets [("Unihan_Readings.txt", ["kDefinition", "kMandarin"])] =
            ["kDefinition", "kMandarin"] := rfl
      rw [hf]
      decide⟩

/-- C7: when a table with the canonical name is already registered,
`create_table` returns that very table and leaves the metadata unchanged,
whatever column list is supplied — it neither re-creates the table nor adds
columns nor alters the existing schema. -/
theorem create_table_returns_existing_unmodified (columns : List String)
    (metadata : Metadata) (t : SATable)
    (h : dlookup metadata bootstrap.TABLE_NAME = some t) :
    bootstrap.create_table columns metadata = (t, metadata) := by
  unfold bootstrap.create_table
  rw [h]

/-- Witness for C7: the supplied field names differ from the existing columns
and are ignored. -/
theorem create_table_returns_existing_unmodified_witness :
    bootstrap.create_table ["kOther"]
        [("Unihan", ⟨"Unihan", ["char", "ucn", "kDefinition"], ["char", "ucn"], []⟩)] =
      (⟨"Unihan", ["char", "ucn", "kDefinition"], ["char", "ucn"], []⟩,
        [("Unihan", ⟨"Unihan", ["char", "ucn", "kDefinition"], ["char", "ucn"], []⟩)]) :=
  create_table_returns_existing_unmodified ["kOther"] _ _ rfl

/-- Rows already in the accumulator survive a successful bulk insert. -/
theorem insertManyAux_acc_mem :
    ∀ (data acc res : List Row), Unihan.insertManyAux acc data = some res →
      ∀ x ∈ acc, x ∈ res := by
  intro data
  induction data with
  | nil =>
    intro acc res h x hx
    simp only [Unihan.insertManyAux, Option.some.injEq] at h
    exact h ▸ hx
  | cons r rs ih =>
    intro acc res h x hx
    unfold Unihan.insertManyAux at h
    by_cases hok : Unihan.rowOK acc r = true
    · rw [if_pos hok] at h
      exact ih (acc ++ [r]) res h x (List.mem_append_left _ hx)
    · rw [if_neg hok] at h
      cases h

/-- A row already present always violates the unique (char, field) index. -/
theorem rowOK_mem_false (acc : List Row) (r : Row) (h : r ∈ acc) :
    Unihan.rowOK acc r = false := by
  unfold Unihan.rowOK
  rw [List.all_eq_false]
  exact ⟨r, h, by simp⟩

/-- Applying one `install` run a second time to its own result is a no-op:
either the first run committed all records (and the second's very first record
then violates the unique index, rolling the whole statement back) or the first
run itself rolled back. -/
theorem installOnce_idem (state data : List Row) :
    Unihan.installOnce (Unihan.installOnce state data) data =
      Unihan.installOnce state data := by
  cases data with
  | nil => rfl
  | cons r rs =>
    cases h : Unihan.insertManyAux state (r :: rs) with
    | none => simp only [Unihan.installOnce, h]
    | some res =>
      have hr : r ∈ res := by
        unfold Unihan.insertManyAux at h
        by_cases hok : Unihan.rowOK state r = true
        · rw [if_pos hok] at h
          exact insertManyAux_acc_mem rs (state ++ [r]) res h r (by simp)
        · rw [if_neg hok] at h
          cases h
      have hnone : Unihan.insertManyAux res (r :: rs) = none := by
        unfold Unihan.insertManyAux
        rw [if_neg]
        simp [rowOK_mem_false res r hr]
      simp only [Unihan.installOnce, h, hnone]

/-- C3: over any fixed source file set (hence any fixed concatenated line
stream), a second `install` run on top of the first leaves the stored table —
and in particular its row count — unchanged: the duplicate bulk insert is
rejected by the uniqueness index without corrupting the previously inserted
rows. -/
theorem install_twice_row_count_unchanged (lines : List String) (state : List Row) :
    Unihan.installFromLines lines (Unihan.installFromLines lines state) =
        Unihan.installFromLines lines state ∧
      (Unihan.installFromLines lines (Unihan.installFromLines lines state)).length =
        (Unihan.installFromLines lines state).length := by
  unfold Unihan.installFromLines
  exact ⟨installOnce_idem _ _, by rw [installOnce_idem]⟩

/-- Bridge between boolean equality tests and decidable propositional ones. -/
theorem beq_to_decide {α : Type} [DecidableEq α] [BEq α] [LawfulBEq α] (a b : α) :
    (a == b) = decide (a = b) := by
  by_cases h : a = b <;> simp [h]

/-- C8: on every line stream `fileinput` can produce (no empty strings), the
comprehension of `csv_to_dictlists` drops exactly the blank lines (`"\n"`) and
the lines whose first character is the comment marker `#`, and turns every
other line into exactly one record, `dict(zip(keys, line.strip().split('\t')))`. -/
theorem csv_filter_blank_and_comment (lines : List String)
    (h : ∀ l ∈ lines, l ≠ "") :
    Unihan.csv_to_dictlists lines =
      (lines.filter (fun l => !decide (l = "\n" ∨ l.front = '#'))).map
        Unihan.recordOfLine := by
  unfold Unihan.csv_to_dictlists
  congr 1
  apply List.filter_congr
  intro l hl
  have _hne := h l hl
  by_cases h1 : l = "\n" <;> by_cases h2 : l.front = '#' <;>
    simp [h1, h2, beq_to_decide]

/-- Witness for C8: a record line survives, a comment line and a blank line are
excluded. -/
theorem csv_filter_blank_and_comment_witness :
    Unihan.csv_to_dictlists ["U+3400\tkCangjie\tQ\n", "# comment\n", "\n"] =
      [[("char", "U+3400"), ("field", "kCangjie"), ("value", "Q")]] :=
  (csv_filter_blank_and_comment ["U+3400\tkCangjie\tQ\n", "# comment\n", "\n"]
      (by decide)).trans rfl

/-- Python `response['unihan'][field] = value` leaves every other key alone. -/
theorem setUnihanField_preserves (resp resp' : Response) (f v k : String)
    (hk : k ≠ "unihan") (h : Unihan.setUnihanField resp f v = some resp') :
    dlookup resp' k = dlookup resp k := by
  unfold Unihan.setUnihanField at h
  cases hu : dlookup resp "unihan" with
  | none => rw [hu] at h; cases h
  | some rv =>
    rw [hu] at h
    cases rv with
    | flat d =>
      cases h
      exact dlookup_dinsert_ne _ _ _ _ hk
    | nested d => cases h
    | other b => cases h

/-- Python `response['unihan'][char][field] = value` leaves every other top-level key
alone. -/
theorem setUnihanNested_preserves (resp resp' : Response) (ch f v k : String)
    (hk : k ≠ "unihan") (h : Unihan.setUnihanNested resp ch f v = some resp') :
    dlookup resp' k = dlookup resp k := by
  unfold Unihan.setUnihanNested at h
  cases hu : dlookup resp "unihan" with
  | none => rw [hu] at h; cases h
  | some rv =>
    rw [hu] at h
    cases rv with
    | flat d => cases h
    | nested d =>
      cases h
      exact dlookup_dinsert_ne _ _ _ _ hk
    | other b => cases h

/-- A monadic fold whose step preserves a key preserves that key. -/
theorem foldlM_preserves_key {β : Type} (step : Response → β → Option Response)
    (k : String)
    (hstep : ∀ resp b resp', step resp b = some resp' →
      dlookup resp' k = dlookup resp k) :
    ∀ (l : List β) (resp resp' : Response),
      List.foldlM step resp l = some resp' → dlookup resp' k = dlookup resp k := by
  intro l
  induction l with
  | nil =>
    intro resp resp' h
    simp only [List.foldlM_nil] at h
    cases h
    rfl
  | cons b bs ih =>
    intro resp resp' h
    rw [List.foldlM_cons] at h
    cases hs : step resp b with
    | none => rw [hs] at h; cases h
    | some x =>
      rw [hs] at h
      simp only [Option.bind_eq_bind, Option.some_bind] at h
      exact (ih x resp' h).trans (hstep resp b x hs)

/-- Creating the empty `unihan` entry when absent leaves other keys alone. -/
theorem ensure_unihan_preserves (response : Response) (k : String)
    (hk : k ≠ "unihan") (v : RVal) :
    dlookup
        (if (dlookup response "unihan").isNone then dinsert response "unihan" v
         else response) k =
      dlookup response k := by
  by_cases h : (dlookup response "unihan").isNone <;>
    simp [h, dlookup_dinsert_ne _ _ _ _ hk]

/-- Method `get` never touches a response key other than `'unihan'`. -/
theorem get_preserves_other_keys (table : List Row) (request : String)
    (fields : List String) (response : Response) (k : String) (resG : Response)
    (hk : k ≠ "unihan")
    (hG : Unihan.get table request fields response = some resG) :
    dlookup resG k = dlookup response k := by
  unfold Unihan.get at hG
  cases hn : Unihan.normalizeRequest request with
  | none => rw [hn] at hG; cases hG
  | some req =>
    rw [hn] at hG
    simp only at hG
    cases hf :
        (Unihan.getQueryRows table fields req).foldlM
          (fun resp r => Unihan.setUnihanField resp r.field r.value)
          (if (dlookup response "unihan").isNone then
            dinsert response "unihan" (RVal.flat [])
          else response) with
    | none => rw [hf] at hG; cases hG
    | some resp2 =>
      rw [hf] at hG
      dsimp only at hG
      have h2 : dlookup resp2 k = dlookup response k :=
        (foldlM_preserves_key _ k
            (fun resp r resp' hr => setUnihanField_preserves resp resp' r.field r.value k hk hr)
            _ _ _ hf).trans
          (ensure_unihan_preserves response k hk _)
      cases hu : dlookup resp2 "unihan" with
      | none => rw [hu] at hG; cases hG
      | some v =>
        rw [hu] at hG
        simp only [Option.some.injEq] at hG
        subst hG
        by_cases hfl : rvalFalsy v = true
        · rw [if_pos hfl, dlookup_ddelete_ne _ _ _ hk]
          exact h2
        · rw [if_neg hfl]
          exact h2

/-- Method `reverse` never touches a response key other than `'unihan'`. -/
theorem reverse_preserves_other_keys (table : List Row) (request : String)
    (fields : List String) (response : Response) (k : String) (resR : Response)
    (hk : k ≠ "unihan")
    (hR : Unihan.reverse table request fields response = some resR) :
    dlookup resR k = dlookup response k := by
  unfold Unihan.reverse at hR
  simp only at hR
  cases hf :
      (Unihan.reverseQueryRows table fields request).foldlM
        (fun resp r =>
          match ucn_to_unicode r.char with
          | none => none
          | some ch => Unihan.setUnihanNested resp ch r.field r.value)
        (if (dlookup response "unihan").isNone then
          dinsert response "unihan" (RVal.nested [])
        else response) with
  | none => rw [hf] at hR; cases hR
  | some resp2 =>
    rw [hf] at hR
    dsimp only at hR
    have h2 : dlookup resp2 k = dlookup response k := by
      refine (foldlM_preserves_key _ k ?_ _ _ _ hf).trans
        (ensure_unihan_preserves response k hk _)
      intro resp r resp' hr
      cases hc : ucn_to_unicode r.char with
      | none => rw [hc] at hr; cases hr
      | some ch =>
        rw [hc] at hr
        exact setUnihanNested_preserves resp resp' ch r.field r.value k hk hr
    cases hu : dlookup resp2 "unihan" with
    | none => rw [hu] at hR; cases hR
    | some v =>
      rw [hu] at hR
      simp only [Option.some.injEq] at hR
      subst hR
      by_cases hfl : rvalFalsy v = true
      · rw [if_pos hfl, dlookup_ddelete_ne _ _ _ hk]
        exact h2
      · rw [if_neg hfl]
        exact h2

/-- C9: on any successful call, `get` and `reverse` leave every key of the
response other than `'unihan'` bound exactly as it was — they only ever add,
populate, or delete the `'unihan'` key of the response they were handed (and
return that same, in-place-mutated dictionary). -/
theorem get_reverse_touch_only_unihan (table : List Row) (request : String)
    (fields : List String) (response : Response) (k : String)
    (resG resR : Response)
    (hk : k ≠ "unihan")
    (hG : Unihan.get table request fields response = some resG)
    (hR : Unihan.reverse table request fields response = some resR) :
    dlookup resG k = dlookup response k ∧ dlookup resR k = dlookup response k :=
  ⟨get_preserves_other_keys table request fields response k resG hk hG,
    reverse_preserves_other_keys table request fields response k resR hk hR⟩

/-- Witness for C9: a `get` that populates `unihan` and a `reverse` that
deletes it both leave the unrelated `"style"` key untouched. -/
theorem get_reverse_touch_only_unihan_witness :
    dlookup ([("style", RVal.other true),
        ("unihan", RVal.flat [("kDefinition", "U+597D")])] : Response) "style" =
      dlookup ([("style", RVal.other true)] : Response) "style" ∧
    dlookup ([("style", RVal.other true)] : Response) "style" =
      dlookup ([("style", RVal.other true)] : Response) "style" :=
  get_reverse_touch_only_unihan [⟨"U+4E00", "kDefinition", "U+597D"⟩] "好"
    ["kDefinition"] [("style", RVal.other true)] "style"
    [("style", RVal.other true), ("unihan", RVal.flat [("kDefinition", "U+597D")])]
    [("style", RVal.other true)] (by decide) rfl rfl

/-- C10: the wide table built by `create_table` declares a uniqueness index on
the `char` column alone (besides the composite one on (`char`, `ucn`)), and
therefore every table state reachable by inserts admitted by the declared
unique indexes has pairwise distinct `char` values. -/
theorem create_table_unique_char (cols : List String) (rows : List WideRow)
    (h : WideReachable (bootstrap.create_table cols []).1 rows) :
    ((bootstrap.TABLE_NAME ++ "_unique_char", (["char"], true)) ∈
        (bootstrap.create_table cols []).1.indexes) ∧
      rows.Pairwise (fun a b => a.char ≠ b.char) := by
  have hidx : (bootstrap.TABLE_NAME ++ "_unique_char", (["char"], true)) ∈
      (bootstrap.create_table cols []).1.indexes := by
    simp [bootstrap.create_table, dlookup]
  refine ⟨hidx, ?_⟩
  induction h with
  | nil => exact List.Pairwise.nil
  | insert hreach hadm ih =>
    rename_i rows0 r
    rw [List.pairwise_append]
    refine ⟨ih, List.pairwise_singleton _ _, ?_⟩
    intro a ha b hb
    rw [List.mem_singleton] at hb
    subst hb
    unfold admissible at hadm
    rw [List.all_eq_true] at hadm
    have hchar := hadm _ hidx
    simp only [Bool.not_true, Bool.false_or] at hchar
    unfold indexAdmits at hchar
    rw [List.all_eq_true] at hchar
    have ha2 := hchar a ha
    simp [colVal] at ha2
    exact ha2

/-- Witness for C10: two inserts with distinct characters are admitted and the
invariant holds for the resulting state. -/
theorem create_table_unique_char_witness :
    ((bootstrap.TABLE_NAME ++ "_unique_char", (["char"], true)) ∈
        (bootstrap.create_table ["kDefinition"] []).1.indexes) ∧
      ([⟨"一", "U+4E00", []⟩, ⟨"二", "U+4E8C", []⟩] : List WideRow).Pairwise
        (fun a b => a.char ≠ b.char) :=
  create_table_unique_char ["kDefinition"] _
    (@WideReachable.insert (bootstrap.create_table ["kDefinition"] []).1
      [⟨"一", "U+4E00", []⟩] ⟨"二", "U+4E8C", []⟩
      (@WideReachable.insert (bootstrap.create_table ["kDefinition"] []).1
        [] ⟨"一", "U+4E00", []⟩ WideReachable.nil (by decide))
      (by decide))
